import Mathlib

/-!
Verification of the walb-tools core against its specification.

The development shallowly embeds the server handlers and pipeline loops of
the walb-tools repository (archive.hpp, storage.hpp, walb_log_net.hpp,
walb_diff_virt.hpp, compressor.cpp, thread_util.hpp).  Pure functions of the
C++ source become Lean functions; stateful handlers become explicit
state-passing functions on record types; machine integers are Nat with an
explicit mod where the source truncates; fallible code returns Option or
Except.  Components of the repository that are referenced but whose sources
are not available (state_machine.hpp, action_counter.hpp, meta.hpp,
constant.hpp, the codec engines) are modelled from the specification text and
are marked as such in their doc comments.
-/

namespace Walb

/-! ## State and action names (src/src/archive.hpp, archive_constant.hpp) -/

def aClear : String := "Clear"

def aSyncReady : String := "SyncReady"

def aArchived : String := "Archived"

def aStopped : String := "Stopped"

def atInitVol : String := "InitVol"

def atClearVol : String := "ClearVol"

def atFullSync : String := "FullSync"

def atHashSync : String := "HashSync"

def atWdiffRecv : String := "WdiffRecv"

def atStop : String := "Stop"

def atStart : String := "Start"

def aMerge : String := "Merge"

def aApply : String := "Apply"

def aRestore : String := "Restore"

def aReplSync : String := "ReplSync"

/-- Transition table registered by the ArchiveVolState constructor
(src/src/archive.hpp lines 39-60), as the list of permitted
(from-state, to-state) pairs. -/
def archiveSmTbl : List (String × String) :=
  [ (aClear, atInitVol), (atInitVol, aSyncReady),
    (aSyncReady, atClearVol), (atClearVol, aClear),
    (aSyncReady, atFullSync), (atFullSync, aArchived),
    (aArchived, atHashSync), (atHashSync, aArchived),
    (aArchived, atWdiffRecv), (atWdiffRecv, aArchived),
    (aArchived, atStop), (atStop, aStopped),
    (aStopped, atClearVol), (atClearVol, aClear),
    (aStopped, atStart), (atStart, aArchived) ]

/-! ## StateMachine and transactions -/

/-- Modelled from the spec: state_machine.hpp is not under src/.  A
StateMachine is a fixed table of permitted (from, to) pairs plus the current
named state (spec section 4.6: states and permitted transitions are
registered at construction from a fixed table). -/
structure StateMachine where
  tbl : List (String × String)
  state : String
deriving DecidableEq

/-- Modelled from the spec (section 4.6): the operation transition(from, via)
atomically asserts the current state is the given from-state and advances to
the transient state via; it fails (throws) otherwise.  This is the opening
half of a StateMachineTransaction. -/
def StateMachine.tryTransition (sm : StateMachine) (fr via : String) :
    Option StateMachine :=
  if sm.state = fr ∧ (fr, via) ∈ sm.tbl then some { sm with state := via }
  else none

/-- Modelled from the spec (section 4.6): commit(to) advances from the
transient state to the stable state to, provided the pair is permitted. -/
def StateMachine.commit (sm : StateMachine) (toSt : String) :
    Option StateMachine :=
  if (sm.state, toSt) ∈ sm.tbl then some { sm with state := toSt } else none

/-! ## ActionCounters -/

/-- Action counter values indexed by action name, the per-volume multiset of
in-flight actions.  Modelled from the spec: action_counter.hpp is not under
src/; spec section 4.6 describes begin(name)/end(name) and isAllZero(names). -/
def acValue (ac : List (String × Nat)) (name : String) : Nat :=
  match ac.find? (fun p => p.1 == name) with
  | some p => p.2
  | none => 0

/-- Modelled from the spec (section 4.6): isAllZero(names) is true when every
named counter is zero. -/
def isAllZero (ac : List (String × Nat)) (names : List String) : Bool :=
  names.all (fun n => acValue ac n == 0)

/-- Modelled from the spec: verifyNoActionRunning throws unless every named
counter is zero (used as the precondition for destructive transitions, spec
sections 3 and 4.6). -/
def verifyNoActionRunning (ac : List (String × Nat)) (names : List String) :
    Except String Unit :=
  if isAllZero ac names then .ok () else .error "verifyNoActionRunning"

/-- Archive action name set checked before state transitions
(src/src/archive.hpp lines 134-137). -/
def archiveActions : List String := [aMerge, aApply, aRestore, aReplSync]

/-- Embeds verifyNoArchiveActionRunning (src/src/archive.hpp lines 134-137). -/
def verifyNoArchiveActionRunning (ac : List (String × Nat)) :
    Except String Unit :=
  verifyNoActionRunning ac archiveActions

/-! ## StopState -/

/-- StopState values (spec section 3; constant.hpp is not under src/). -/
inductive StopState
  | NotStopping
  | GracefulStopping
  | ForceStopping
deriving DecidableEq

/-- Modelled from the spec: verifyNotStopping (called in src/src/archive.hpp
lines 385, 429, 511) throws when the volume is being stopped. -/
def verifyNotStopping (s : StopState) : Except String Unit :=
  if s = StopState.NotStopping then .ok () else .error "verifyNotStopping"

/-! ## Snapshot metadata (spec section 3; meta.hpp is not under src/) -/

/-- Modelled from the spec (section 3): a MetaSnap is an ordered gid pair. -/
structure MetaSnap where
  gidB : Nat
  gidE : Nat
deriving DecidableEq

/-- Modelled from the spec (section 3): a snapshot is clean when its
endpoints coincide. -/
def MetaSnap.isClean (s : MetaSnap) : Bool := s.gidB == s.gidE

/-- Modelled from the spec (section 3): a MetaDiff advances snapB to snapE. -/
structure MetaDiff where
  snapB : MetaSnap
  snapE : MetaSnap
deriving DecidableEq

/-- Modelled from the spec (section 3): a MetaState is a snapshot plus a
wall-clock timestamp. -/
structure MetaState where
  snap : MetaSnap
  timestamp : Nat
deriving DecidableEq

/-- Modelled from the spec (section 3): relation between a latest snapshot
and a candidate diff. -/
inductive Relation
  | applicableDiff
  | notApplicableDiff
  | tooOldDiff
  | tooNewDiff
deriving DecidableEq

/-- Modelled from the spec (section 3): APPLICABLE_DIFF when the diff begins
exactly at the latest snapshot; TOO_OLD_DIFF when the diff ends at or before
the latest gidB; TOO_NEW_DIFF when the diff begins after the latest gidB;
NOT_APPLICABLE_DIFF on any other gap or mismatch. -/
def getRelation (latest : MetaSnap) (d : MetaDiff) : Relation :=
  if d.snapB = latest then .applicableDiff
  else if d.snapE.gidB ≤ latest.gidB then .tooOldDiff
  else if latest.gidB < d.snapB.gidB then .tooNewDiff
  else .notApplicableDiff

/-- Modelled from the spec (sections 4.9 and 7): the canonical reply tag for
each relation. -/
def getRelationStr : Relation → String
  | .applicableDiff => "applicable-diff"
  | .notApplicableDiff => "not-applicable-diff"
  | .tooOldDiff => "too-old-diff"
  | .tooNewDiff => "too-new-diff"

/-- Modelled from the spec (section 4.3): getLatestSnapshot starts from the
base snapshot and greedily extends while an applicable clean diff exists.
The fuel argument bounds the chain length by the number of diffs held. -/
def getLatestSnapshotGo (diffs : List MetaDiff) : Nat → MetaSnap → MetaSnap
  | 0, s => s
  | fuel + 1, s =>
    match diffs.find? (fun d => d.snapB == s && d.snapE.isClean) with
    | some d => getLatestSnapshotGo diffs fuel d.snapE
    | none => s

/-- Modelled from the spec (section 4.3): the latest snapshot reachable from
the base MetaState through applicable clean diffs. -/
def getLatestSnapshot (diffs : List MetaDiff) (base : MetaState) : MetaSnap :=
  getLatestSnapshotGo diffs diffs.length base.snap

/-! ## Archive volume state

Combines the in-memory ArchiveVolState (stopState, sm, ac, diffMgr;
src/src/archive.hpp lines 25-66) with the persisted ArchiveVolInfo view
(volume directory existence, state file, uuid file, base MetaState, created
LV; archive_vol_info.hpp is not under src/ and is modelled from spec
sections 3 and 6: volume directory with state, uuid and base files).  Socket
and file contents are abstracted: the uuid is a Nat, the LV only by its
size. -/

structure ArchiveVol where
  stopState : StopState
  sm : StateMachine
  ac : List (String × Nat)
  diffMgr : List MetaDiff
  dirExists : Bool
  fileState : String
  uuid : Nat
  metaState : MetaState
  lvSize : Option Nat
deriving DecidableEq

/-! ## Archive handlers (src/src/archive.hpp) -/

/-- Embeds c2aInitVolServer (src/src/archive.hpp lines 139-158):
verifyNoArchiveActionRunning, then a StateMachineTransaction
Clear to InitVol, volInfo.init(), commit to SyncReady, then Ack.
The returned Bool is the Ack. -/
def c2aInitVolServer (vol : ArchiveVol) : Except String (ArchiveVol × Bool) :=
  match verifyNoArchiveActionRunning vol.ac with
  | .error e => .error e
  | .ok _ =>
    match vol.sm.tryTransition aClear atInitVol with
    | none => .error "transaction"
    | some sm1 =>
      match sm1.commit aSyncReady with
      | none => .error "commit"
      | some sm2 =>
        .ok ({ vol with sm := sm2, dirExists := true,
                        fileState := aSyncReady }, true)

/-- Embeds c2aClearVolServer (src/src/archive.hpp lines 160-184):
verifyNoArchiveActionRunning, then a StateMachineTransaction from the
current state (Stopped or SyncReady) to ClearVol, volInfo.clear(), commit to
Clear, then Ack. -/
def c2aClearVolServer (vol : ArchiveVol) : Except String (ArchiveVol × Bool) :=
  match verifyNoArchiveActionRunning vol.ac with
  | .error e => .error e
  | .ok _ =>
    match vol.sm.tryTransition vol.sm.state atClearVol with
    | none => .error "transaction"
    | some sm1 =>
      match sm1.commit aClear with
      | none => .error "commit"
      | some sm2 =>
        .ok ({ vol with sm := sm2, dirExists := false,
                        fileState := aClear }, true)

/-- Embeds c2aStartServer (src/src/archive.hpp lines 190-215):
verifyNoArchiveActionRunning, then a StateMachineTransaction Stopped to
Start, state-file check, setState(Archived), commit to Archived, then Ack. -/
def c2aStartServer (vol : ArchiveVol) : Except String (ArchiveVol × Bool) :=
  match verifyNoArchiveActionRunning vol.ac with
  | .error e => .error e
  | .ok _ =>
    match vol.sm.tryTransition aStopped atStart with
    | none => .error "transaction"
    | some sm1 =>
      if vol.fileState ≠ aStopped then .error "not Stopped state"
      else
        match sm1.commit aArchived with
        | none => .error "commit"
        | some sm2 =>
          .ok ({ vol with sm := sm2, fileState := aArchived }, true)

/-- Wait predicate of c2aStopServer (src/src/archive.hpp lines 239-244): all
four archive action counters are zero and the state is stable. -/
def c2aStopWaitPred (vol : ArchiveVol) : Bool :=
  isAllZero vol.ac archiveActions &&
    (vol.sm.state == aClear || vol.sm.state == aSyncReady ||
     vol.sm.state == aArchived || vol.sm.state == aStopped)

/-- Embeds the part of c2aStopServer after the condition-variable wait
(src/src/archive.hpp lines 246-262); the caller establishes c2aStopWaitPred.
Returns the transient state entered (if any) and the final volume state. -/
def c2aStopServerAfterWait (vol : ArchiveVol) :
    Except String (Option String × ArchiveVol) :=
  if vol.sm.state ≠ aArchived then .ok (none, vol)
  else
    match vol.sm.tryTransition aArchived atStop with
    | none => .error "transaction"
    | some sm1 =>
      if vol.fileState ≠ aArchived then .error "not Archived state"
      else
        match sm1.commit aStopped with
        | none => .error "commit"
        | some sm2 =>
          .ok (some atStop, { vol with sm := sm2, fileState := aStopped })

/-! ## Dirty full sync (src/src/archive.hpp lines 268-369,
src/src/storage.hpp lines 240-344) -/

/-- Parameter message of the dirty-full-sync protocol
(src/src/archive.hpp lines 274-285). -/
structure FullSyncParams where
  hostType : String
  volId : String
  uuid : Nat
  sizeLb : Nat
  curTime : Nat
  bulkLb : Nat
deriving DecidableEq

/-- One received chunk of the full-sync stream, abstracted to its encoded
size and its Snappy-decoded size (src/src/archive.hpp lines 328-344). -/
structure FsChunk where
  encSize : Nat
  decSize : Nat
deriving DecidableEq

/-- Embeds the receive-and-write loop of x2aDirtyFullSyncServer
(src/src/archive.hpp lines 319-348).  The source computes the chunk block
count as uint16_t lb = min(bulkLb, remainingLb), a 64-bit minimum truncated
to 16 bits, embedded here as mod 65536.  The chunk stream is indexed by the
packet counter c; the result is some (ok c) on loop exit with final packet
count c, some (error e) when a read or decompression check fails, and none
when the fuel runs out with the loop still running. -/
def x2aFullSyncRecvLoop (bulkLb : Nat) (chunks : Nat → FsChunk) :
    Nat → Nat → Nat → Option (Except String Nat)
  | 0, _, _ => none
  | fuel + 1, remainingLb, c =>
    if remainingLb = 0 then some (.ok c)
    else
      let lb := min bulkLb remainingLb % 65536
      let size := lb * 512
      let ch := chunks c
      if ch.encSize = 0 then some (.error "encSize is zero")
      else if ch.decSize ≠ size then some (.error "decSize differs")
      else x2aFullSyncRecvLoop bulkLb chunks fuel (remainingLb - lb) (c + 1)

/-- Embeds x2aDirtyFullSyncServer (src/src/archive.hpp lines 268-369):
parameter validation (hostType, bulkLb nonzero), verifyNoArchiveActionRunning,
stop-state check, StateMachineTransaction SyncReady to FullSync, state-file
check, createLv, the receive loop, then reading (gidB, gidE), persisting
MetaState and uuid, setState(Archived), commit and Ack.  The force-stop
early-return inside the loop is not modelled (it returns without commit).
The returned Bool is the final Ack. -/
def x2aDirtyFullSyncServer (vol : ArchiveVol) (prm : FullSyncParams)
    (chunks : Nat → FsChunk) (fuel : Nat) (gidB gidE : Nat) :
    Option (Except String (ArchiveVol × Bool)) :=
  if prm.hostType ≠ "storageD" ∧ prm.hostType ≠ "archiveD" then
    some (.error "invalid hostType")
  else if prm.bulkLb = 0 then some (.error "bulkLb is zero")
  else
    match verifyNoArchiveActionRunning vol.ac with
    | .error e => some (.error e)
    | .ok _ =>
      if vol.stopState ≠ StopState.NotStopping then some (.error "notStopping")
      else
        match vol.sm.tryTransition aSyncReady atFullSync with
        | none => some (.error "transaction")
        | some sm1 =>
          if vol.fileState ≠ aSyncReady then
            some (.error "state is not SyncReady")
          else
            match x2aFullSyncRecvLoop prm.bulkLb chunks fuel prm.sizeLb 0 with
            | none => none
            | some (.error e) => some (.error e)
            | some (.ok _) =>
              match sm1.commit aArchived with
              | none => some (.error "commit")
              | some sm2 =>
                some (.ok ({ vol with
                  sm := sm2,
                  lvSize := some prm.sizeLb,
                  metaState := ⟨⟨gidB, gidE⟩, prm.curTime⟩,
                  uuid := prm.uuid,
                  fileState := aArchived }, true))

/-- Embeds the send loop of c2sFullSyncServer (src/src/storage.hpp lines
303-323) with the same uint16_t truncation of the chunk block count.
Returns the list of chunk block counts sent, or none when the fuel runs out
with the loop still running. -/
def c2sFullSyncSendLoop (bulkLb : Nat) : Nat → Nat → Option (List Nat)
  | 0, _ => none
  | fuel + 1, remainingLb =>
    if remainingLb = 0 then some []
    else
      let lb := min bulkLb remainingLb % 65536
      match c2sFullSyncSendLoop bulkLb fuel (remainingLb - lb) with
      | some l => some (lb :: l)
      | none => none

/-- Snapshot gid pair written by the storage client at the end of the
full-sync protocol (src/src/storage.hpp lines 326-330: gidB = 0, gidE = 1,
under a TODO to take a real snapshot). -/
def c2sFullSyncGidPair : Nat × Nat := (0, 1)

/-- Intended chunk decomposition of a full sync: min(bulkLb, remaining)
blocks per chunk until the size is exhausted. -/
def chunkList (bulkLb : Nat) (remaining : Nat) : List Nat :=
  if _h : bulkLb = 0 ∨ remaining = 0 then []
  else min bulkLb remaining ::
    chunkList bulkLb (remaining - min bulkLb remaining)
termination_by remaining
decreasing_by
  push_neg at _h
  omega

/-- Chunk stream produced by a well-behaved full-sync sender of sizeLb
blocks with the given bulk size: chunk i Snappy-decodes to exactly
min(bulkLb, sizeLb - i * bulkLb) * 512 bytes (spec section 4.8). -/
def goodChunks (sizeLb bulkLb : Nat) : Nat → FsChunk :=
  fun i => ⟨1, min bulkLb (sizeLb - i * bulkLb) * 512⟩

/-! ## Wdiff transfer (src/src/archive.hpp lines 478-568) -/

/-- Request head of the wdiff-transfer protocol
(src/src/archive.hpp lines 485-502). -/
structure WdiffTransferReq where
  volId : String
  clientType : String
  uuid : Nat
  maxIoBlocks : Nat
  sizeLb : Nat
  diff : MetaDiff
deriving DecidableEq

/-- Result of a wdiff-transfer request: the reply tag written to the peer,
the transient state entered through the StateMachineTransaction (if any),
and the resulting volume state. -/
structure WdiffTransferResult where
  reply : String
  entered : Option String
  vol : ArchiveVol
deriving DecidableEq

/-- Embeds x2aWdiffTransferServer (src/src/archive.hpp lines 478-568):
parameter validation, verifyNotStopping, then the reply decision chain
(archive-not-found, stopped, different-uuid, relation tag), and on an
applicable diff the ok reply, the StateMachineTransaction Archived to
WdiffRecv, the wdiff file write (abstracted), diffMgr.add and commit to
Archived.  Note that unlike the other archive handlers it performs no
verifyNoArchiveActionRunning check before opening the transaction. -/
def x2aWdiffTransferServer (vol : ArchiveVol) (req : WdiffTransferReq) :
    Except String WdiffTransferResult :=
  if req.volId = "" then .error "empty volId"
  else if req.clientType ≠ "proxy" ∧ req.clientType ≠ "archive" then
    .error "bad clientType"
  else
    match verifyNotStopping vol.stopState with
    | .error e => .error e
    | .ok _ =>
      if ¬ vol.dirExists then .ok ⟨"archive-not-found", none, vol⟩
      else if vol.sm.state = aStopped then .ok ⟨"stopped", none, vol⟩
      else if req.clientType = "proxy" ∧ vol.uuid ≠ req.uuid then
        .ok ⟨"different-uuid", none, vol⟩
      else
        let latestSnap := getLatestSnapshot vol.diffMgr vol.metaState
        let rel := getRelation latestSnap req.diff
        if rel ≠ Relation.applicableDiff then
          .ok ⟨getRelationStr rel, none, vol⟩
        else
          match vol.sm.tryTransition aArchived atWdiffRecv with
          | none => .error "transaction"
          | some sm1 =>
            match sm1.commit aArchived with
            | none => .error "commit"
            | some sm2 =>
              .ok ⟨"ok", some atWdiffRecv,
                { vol with sm := sm2, diffMgr := vol.diffMgr ++ [req.diff] }⟩

/-! ## Storage daemon (src/src/storage.hpp)

The storage state name constants live in storage_constant.hpp, which is not
under src/; the names below are modelled from the state machine table of
StorageVolState (src/src/storage.hpp lines 17-45) and the glossary (stable
states Clear/SyncReady/Stopped/Master/Slave, transient states named after
their action). -/

def sClear : String := "Clear"

def sSyncReady : String := "SyncReady"

def sStopped : String := "Stopped"

def sMaster : String := "Master"

def sSlave : String := "Slave"

def stInitVol : String := "InitVol"

def stClearVol : String := "ClearVol"

def stStartSlave : String := "StartSlave"

def stStopSlave : String := "StopSlave"

def stWlogRemove : String := "WlogRemove"

def stFullSync : String := "FullSync"

def stHashSync : String := "HashSync"

def stReset : String := "Reset"

def stStartMaster : String := "StartMaster"

def stStopMaster : String := "StopMaster"

def stWlogSend : String := "WlogSend"

/-- Transition table registered by the StorageVolState constructor
(src/src/storage.hpp lines 17-45). -/
def storageSmTbl : List (String × String) :=
  [ (sClear, stInitVol), (stInitVol, sSyncReady),
    (sSyncReady, stClearVol), (stClearVol, sClear),
    (sSyncReady, stStartSlave), (stStartSlave, sSlave),
    (sSlave, stStopSlave), (stStopSlave, sSyncReady),
    (sSlave, stWlogRemove), (stWlogRemove, sSlave),
    (sSyncReady, stFullSync), (stFullSync, sStopped),
    (sSyncReady, stHashSync), (stHashSync, sStopped),
    (sStopped, stReset), (stReset, sSyncReady),
    (sStopped, stStartMaster), (stStartMaster, sMaster),
    (sMaster, stStopMaster), (stStopMaster, sStopped),
    (sMaster, stWlogSend), (stWlogSend, sMaster) ]

/-- In-memory storage volume state (src/src/storage.hpp lines 11-49)
combined with the persisted state file. -/
structure StorageVol where
  stopping : Bool
  forceStop : Bool
  sm : StateMachine
  fileState : String
deriving DecidableEq

/-- DEFAULT_TIMEOUT (constant.hpp is not under src/; the value is irrelevant
to the claims, only its finiteness matters). -/
def defaultTimeout : Nat := 60

/-- Transient-state test of the wait loop in c2sStopServer
(src/src/storage.hpp line 205). -/
def c2sStopTransient (st : String) : Bool :=
  st == stFullSync || st == stHashSync || st == stWlogSend ||
    st == stWlogRemove

/-- Embeds the wait loop of c2sStopServer (src/src/storage.hpp lines
199-210) faithfully: for(;;) checks the timeout counter, re-reads the state,
and on a transient state sleeps and increments the counter and continues;
the body contains NO break statement, so on a non-transient state it loops
again with the counter unchanged.  The observed state st is fixed (no
concurrent transition, i.e. all tasks have already stopped).  Result:
some (error) when the timeout fires, some (ok) if the loop could exit
(unreachable in the source), none when the fuel is exhausted with the loop
still spinning. -/
def c2sStopWaitLoop (timeout : Nat) : Nat → Nat → String →
    Option (Except String Unit)
  | 0, _, _ => none
  | fuel + 1, c, st =>
    if c > timeout then some (.error "c2sStopServer:timeout")
    else if c2sStopTransient st then c2sStopWaitLoop timeout fuel (c + 1) st
    else c2sStopWaitLoop timeout fuel c st

/-- Embeds the code after the wait loop of c2sStopServer
(src/src/storage.hpp lines 211-238), including the condition
st != sMaster || st != sSlave exactly as written in the source (with or,
not and).  Returns the transient state entered (if any) and the final
volume state; the Ack is implicit in the ok result. -/
def c2sStopServerAfterLoop (vol : StorageVol) :
    Except String (Option String × StorageVol) :=
  let st := vol.sm.state
  if st ≠ sMaster ∨ st ≠ sSlave then .ok (none, vol)
  else if st = sMaster then
    match vol.sm.tryTransition sMaster stStopMaster with
    | none => .error "transaction"
    | some sm1 =>
      match sm1.commit sStopped with
      | none => .error "commit"
      | some sm2 =>
        .ok (some stStopMaster, { vol with sm := sm2, fileState := sStopped })
  else
    match vol.sm.tryTransition sSlave stStopSlave with
    | none => .error "transaction"
    | some sm1 =>
      match sm1.commit sSyncReady with
      | none => .error "commit"
      | some sm2 =>
        .ok (some stStopSlave, { vol with sm := sm2, fileState := sSyncReady })

/-! ## Log transport (src/src/walb_log_net.hpp) -/

/-- In-memory attributes of a log pack header relevant to the transport
checks (walb_log_base.hpp is not under src/; the fields are modelled from
their use in src/src/walb_log_net.hpp: pbs(), salt(), isEnd(), and the raw
block of pbs bytes). -/
structure LogPackHeaderW where
  pbs : Nat
  salt : Nat
  nRecords : Nat
  isEnd : Bool
deriving DecidableEq

/-- Fixed transport parameters set once by setParams
(src/src/walb_log_net.hpp lines 122-125 and 276-279). -/
structure LogTransportParams where
  pbs : Nat
  salt : Nat
deriving DecidableEq

/-- Embeds Sender::verifyPbsAndSalt (src/src/walb_log_net.hpp lines
192-199): throws when the header pbs or salt differs from the fixed
parameters. -/
def senderVerifyPbsAndSalt (p : LogTransportParams) (h : LogPackHeaderW) :
    Except String Unit :=
  if h.pbs ≠ p.pbs then .error "invalid pbs"
  else if h.salt ≠ p.salt then .error "invalid salt"
  else .ok ()

/-- One message in the transport queues: its raw byte size and, for header
messages, the header attributes (compressed_data.hpp is not under src/; only
rawSize is inspected by the code under verification). -/
structure CompressedDataW where
  rawSize : Nat
  header : LogPackHeaderW
deriving DecidableEq

/-- Embeds Sender::pushHeader (src/src/walb_log_net.hpp lines 136-144):
verifyPbsAndSalt, then enqueue the header block of pbs bytes. -/
def senderPushHeader (p : LogTransportParams) (q0 : List CompressedDataW)
    (h : LogPackHeaderW) : Except String (List CompressedDataW) :=
  match senderVerifyPbsAndSalt p h with
  | .error e => .error e
  | .ok _ => .ok (q0 ++ [⟨p.pbs, h⟩])

/-- Record attributes relevant to pushIo/popIo
(modelled from their use in src/src/walb_log_net.hpp). -/
structure LogRecordW where
  hasDataForChecksum : Bool
  ioSizePb : Nat
deriving DecidableEq

/-- Embeds Sender::pushIo (src/src/walb_log_net.hpp lines 148-156):
verifyPbsAndSalt on the header, then enqueue the IO blocks only when the
record has data (discard and padding records push nothing). -/
def senderPushIo (p : LogTransportParams) (q0 : List CompressedDataW)
    (h : LogPackHeaderW) (rec : LogRecordW) (ioSize : Nat) :
    Except String (List CompressedDataW) :=
  match senderVerifyPbsAndSalt p h with
  | .error e => .error e
  | .ok _ =>
    if rec.hasDataForChecksum then .ok (q0 ++ [⟨ioSize, h⟩]) else .ok q0

/-- Embeds Receiver::popHeader (src/src/walb_log_net.hpp lines 293-308): a
none pop means clean end of stream (returns false); otherwise the raw size
of the popped message must equal the fixed pbs, the block is copied into the
header, and an end header is rejected.  No other field of the received
header is checked. -/
def receiverPopHeader (p : LogTransportParams)
    (popped : Option CompressedDataW) :
    Except String (Option LogPackHeaderW) :=
  match popped with
  | none => .ok none
  | some cd =>
    if cd.rawSize ≠ p.pbs then .error "invalid pack header size"
    else if cd.header.isEnd then .error "end header is not permitted"
    else .ok (some cd.header)

/-! ## Codec (src/src/compressor.cpp) -/

/-- Compression modes of walb::Compressor (src/src/compressor.cpp). -/
inductive CompressorMode
  | AsIs
  | Snappy
  | Zlib
  | Xz
deriving DecidableEq

/-- Modelled from the spec: the codec engines (compressor-asis.hpp,
compressor-snappy.hpp, compressor-zlib.hpp, compressor-xz.hpp) are not
under src/.  AsIs is the identity (spec section 2: identity, Snappy, Zlib,
Xz).  The three real codecs are abstracted to one canonical length-carrying
encoding: the compressed stream records the uncompressed length, as the
Snappy preamble does (cf. snappy GetUncompressedLength in
src/src/archive.hpp lines 336-338).  Bytes are abstracted to Nat. -/
def compressorRun : CompressorMode → List Nat → List Nat
  | .AsIs, x => x
  | _, x => x.length :: x

/-- Modelled from the spec: uncompress validates the stream and fails on
malformed input, as the real codecs do (cf. the GetUncompressedLength and
RawUncompress failure paths in src/src/archive.hpp lines 336-344). -/
def uncompressorRun : CompressorMode → List Nat → Option (List Nat)
  | .AsIs, y => some y
  | _, y =>
    match y with
    | [] => none
    | len :: rest => if rest.length = len then some rest else none

/-! ## BoundedQueue (src/include/thread_util.hpp lines 565-728)

Sequential embedding: the mutex and condition variables serialize the
operations, so each operation is a function of the queue state.  A wait that
no concurrent thread can end (push on a full open queue, pop on an empty
open queue) is the wouldBlock outcome. -/

structure BoundedQueueM (α : Type) where
  size : Nat
  queue : List α
  closed : Bool
  isError : Bool
deriving DecidableEq

/-- Outcome of BoundedQueueM.push. -/
inductive QPushResult
  | ok
  | closedError
  | queueError
  | wouldBlock
deriving DecidableEq

/-- Embeds BoundedQueue::push (src/include/thread_util.hpp lines 622-633):
checkError, ClosedError when closed, wait while open and full, then enqueue
at the back. -/
def BoundedQueueM.push (q : BoundedQueueM α) (t : α) :
    QPushResult × BoundedQueueM α :=
  if q.isError then (.queueError, q)
  else if q.closed then (.closedError, q)
  else if q.size ≤ q.queue.length then (.wouldBlock, q)
  else (.ok, { q with queue := q.queue ++ [t] })

/-- Outcome of BoundedQueueM.popQ. -/
inductive QPopResult (α : Type)
  | ok (t : α)
  | closedError
  | queueError
  | wouldBlock
deriving DecidableEq

/-- Embeds BoundedQueue::pop (src/include/thread_util.hpp lines 640-653):
checkError, ClosedError when closed and empty, wait while open and empty,
then dequeue the front. -/
def BoundedQueueM.popQ (q : BoundedQueueM α) :
    QPopResult α × BoundedQueueM α :=
  if q.isError then (.queueError, q)
  else if q.closed && q.queue.isEmpty then (.closedError, q)
  else
    match q.queue with
    | [] => (.wouldBlock, q)
    | t :: rest => (.ok t, { q with queue := rest })

/-- Outcome of the bool-returning pop. -/
inductive QPopBResult (α : Type)
  | got (t : α)
  | ended
  | failed
  | blocked
deriving DecidableEq

/-- Embeds bool BoundedQueue::pop(T&) (src/include/thread_util.hpp lines
658-665): ClosedError is converted to false (ended); other exceptions
propagate. -/
def BoundedQueueM.popB (q : BoundedQueueM α) :
    QPopBResult α × BoundedQueueM α :=
  match q.popQ with
  | (.ok t, q1) => (.got t, q1)
  | (.closedError, q1) => (.ended, q1)
  | (.queueError, q1) => (.failed, q1)
  | (.wouldBlock, q1) => (.blocked, q1)

/-- Embeds BoundedQueue::sync (src/include/thread_util.hpp lines 671-677):
checkError, then mark the queue closed. -/
def BoundedQueueM.syncQ (q : BoundedQueueM α) :
    Except String (BoundedQueueM α) :=
  if q.isError then .error "queue error."
  else .ok { q with closed := true }

/-- Embeds BoundedQueue::error (src/include/thread_util.hpp lines 706-713):
mark the queue closed and failed. -/
def BoundedQueueM.errorQ (q : BoundedQueueM α) : BoundedQueueM α :=
  { q with closed := true, isError := true }

/-- Drains a queue by repeated pop: collects the values while pop succeeds
(the pattern while (q.pop(t)) of the source documentation, src/include/
thread_util.hpp lines 560-563). -/
def drainPop : Nat → BoundedQueueM α → List α × BoundedQueueM α
  | 0, q => ([], q)
  | fuel + 1, q =>
    match q.popQ with
    | (.ok t, q1) =>
      let r := drainPop fuel q1
      (t :: r.1, r.2)
    | (_, q1) => ([], q1)

/-! ## Virtual full scanner (src/src/walb_diff_virt.hpp)

Block-granular embedding: all scanner operations are multiples of
LOGICAL_BLOCK_SIZE, so the base image and the output are lists with one
entry per logical block; 0 is the zeroed block.  The wdiff overlay is the
ordered record sequence the merger yields. -/

/-- Flags of a walb diff record (walb_diff_base.hpp is not under src/;
normal records carry payload, allZero and discard do not, spec section 3). -/
inductive DiffRecKind
  | normal (data : List Nat)
  | allZero
  | discard
deriving DecidableEq

/-- A diff record as seen by the scanner: address and block count in logical
blocks, plus its kind. -/
structure DiffRecord where
  ioAddress : Nat
  ioBlocks : Nat
  kind : DiffRecKind
deriving DecidableEq

/-- Default-constructed RecIo (src/src/walb_diff_virt.hpp line 211): a
record of zero blocks. -/
def emptyRec : DiffRecord := ⟨0, 0, .allZero⟩

/-- State of VirtualFullScanner (src/src/walb_diff_virt.hpp lines 32-41):
base reader position, next logical block to emit, current record, offset
into it, end-of-diff flag and the records still queued in the merger. -/
structure VfsState where
  basePos : Nat
  addr : Nat
  recIo : DiffRecord
  offInIo : Nat
  isEndDiff : Bool
  pending : List DiffRecord
  emptyWdiff : Bool
deriving DecidableEq

/-- Initial scanner state (src/src/walb_diff_virt.hpp lines 49-63). -/
def VfsState.init (records : List DiffRecord) : VfsState :=
  { basePos := 0, addr := 0, recIo := emptyRec, offInIo := 0,
    isEndDiff := false, pending := records,
    emptyWdiff := records.isEmpty }

/-- Embeds VirtualFullScanner::fillDiffIo (src/src/walb_diff_virt.hpp lines
202-214): when the current record is exhausted, reset the offset and pop the
next record from the merger, or mark the end of the diffs. -/
def fillDiffIo (s : VfsState) : VfsState :=
  if s.emptyWdiff || s.isEndDiff then s
  else if s.offInIo = s.recIo.ioBlocks then
    match s.pending with
    | [] => { s with offInIo := 0, isEndDiff := true, recIo := emptyRec }
    | r :: rs => { s with offInIo := 0, recIo := r, pending := rs }
  else s

/-- Embeds VirtualFullScanner::readBase (src/src/walb_diff_virt.hpp lines
142-158): read up to blks blocks from the base, short at end of file, and
advance both the base position and the emission address by the blocks
actually read. -/
def readBase (base : List Nat) (s : VfsState) (blks : Nat) :
    List Nat × VfsState :=
  let readLb := min blks (base.length - s.basePos)
  ((base.drop s.basePos).take readLb,
   { s with basePos := s.basePos + readLb, addr := s.addr + readLb })

/-- Embeds VirtualFullScanner::readWdiff (src/src/walb_diff_virt.hpp lines
166-185): emit blks blocks from the current record (payload for normal
records, zero blocks for allZero and discard), then advance the offset, skip
the same count on the base (skipBase, lines 189-198) and advance the
address. -/
def readWdiff (s : VfsState) (blks : Nat) : List Nat × VfsState :=
  let out :=
    match s.recIo.kind with
    | .normal data => (data.drop s.offInIo).take blks
    | _ => List.replicate blks 0
  (out, { s with offInIo := s.offInIo + blks,
                 basePos := s.basePos + blks,
                 addr := s.addr + blks })

/-- Embeds VirtualFullScanner::readSome (src/src/walb_diff_virt.hpp lines
90-118): cap the request at 65535 blocks, fillDiffIo, then read from the
base when no overlay remains or the overlay is still ahead, and from the
overlay when the address matches, taking min(blks, remaining record
blocks). -/
def readSome (base : List Nat) (blks : Nat) (s : VfsState) :
    List Nat × VfsState :=
  let blks := min blks 65535
  let s1 := fillDiffIo s
  if s1.emptyWdiff || s1.isEndDiff then readBase base s1 blks
  else
    let diffAddr := s1.recIo.ioAddress + s1.offInIo
    if s1.addr = diffAddr then
      readWdiff s1 (min blks (s1.recIo.ioBlocks - s1.offInIo))
    else
      readBase base s1 (min blks (diffAddr - s1.addr))

/-- Drives readSome until it returns no data, concatenating the output, as
VirtualFullScanner::readAndWriteTo does (src/src/walb_diff_virt.hpp lines
70-79). -/
def scanAll (base : List Nat) (blks : Nat) : Nat → VfsState → List Nat
  | 0, _ => []
  | fuel + 1, s =>
    let r := readSome base blks s
    if r.1.isEmpty then [] else r.1 ++ scanAll base blks fuel r.2

/-! ## Intermediate scanner states

Phase states reached by the scanner while streaming a base overlaid by one
all-zero record over the range from a of n blocks: before the record, inside
the record, and after the last record. -/

/-- Scanner state while still in front of the record: position k with the
record loaded. -/
def vfsA (a n k : Nat) : VfsState :=
  ⟨k, k, ⟨a, n, .allZero⟩, 0, false, [], false⟩

/-- Scanner state inside the record: j blocks of the record emitted. -/
def vfsB (a n j : Nat) : VfsState :=
  ⟨a + j, a + j, ⟨a, n, .allZero⟩, j, false, [], false⟩

/-- Scanner state after all records: end of diffs at position m. -/
def vfsC (m : Nat) : VfsState :=
  ⟨m, m, emptyRec, 0, true, [], false⟩

/-! ## Concrete sample values used by witnesses and counterexamples -/

/-- An archive volume in SyncReady with no running action. -/
def archVol0 : ArchiveVol :=
  ⟨.NotStopping, ⟨archiveSmTbl, aSyncReady⟩, [], [], true, aSyncReady, 0,
   ⟨⟨0, 0⟩, 0⟩, none⟩

/-- An archive volume in Archived whose Restore action counter is 1. -/
def archVolRestore : ArchiveVol :=
  ⟨.NotStopping, ⟨archiveSmTbl, aArchived⟩, [(aRestore, 1)], [], true,
   aArchived, 7, ⟨⟨0, 0⟩, 100⟩, none⟩

/-- A wdiff-transfer request from a proxy with matching uuid and an
applicable diff for the volume above. -/
def wdiffReq0 : WdiffTransferReq :=
  ⟨"vol0", "proxy", 7, 64, 100, ⟨⟨0, 0⟩, ⟨1, 1⟩⟩⟩

/-- Full-sync parameters with bulkLb = 0. -/
def fsPrm0 : FullSyncParams := ⟨"storageD", "vol0", 9, 5, 1234, 0⟩

/-- Full-sync parameters with sizeLb = 5 and bulkLb = 2. -/
def fsPrm1 : FullSyncParams := ⟨"storageD", "vol0", 9, 5, 1234, 2⟩

/-- Chunk stream of a sender that also truncates the chunk size to uint16_t:
with a zero block count each chunk encodes zero bytes (nonzero encoded size,
zero decoded size). -/
def zeroChunks : Nat → FsChunk := fun _ => ⟨1, 0⟩

/-- A bounded queue of capacity 3 holding two items, open and error-free. -/
def queue0 : BoundedQueueM Nat := ⟨3, [10, 20], false, false⟩

/-- Log transport parameters pbs = 4096, salt = 5. -/
def logPrm0 : LogTransportParams := ⟨4096, 5⟩

/-- A log pack header whose pbs matches logPrm0 but whose salt differs. -/
def logHdrBadSalt : LogPackHeaderW := ⟨4096, 7, 3, false⟩

/-- Reply behaviour stated by the specification for the wdiff-transfer
server (spec section 4.9): the canonical tag for each failing precondition,
volume state unchanged on every non-ok reply, and the WdiffRecv transition
entered only for an applicable diff. -/
def WdiffReplySpec (vol : ArchiveVol) (req : WdiffTransferReq) : Prop :=
  (vol.dirExists = false →
     x2aWdiffTransferServer vol req = .ok ⟨"archive-not-found", none, vol⟩) ∧
  (vol.dirExists = true → vol.sm.state = aStopped →
     x2aWdiffTransferServer vol req = .ok ⟨"stopped", none, vol⟩) ∧
  (vol.dirExists = true → vol.sm.state ≠ aStopped →
   req.clientType = "proxy" → vol.uuid ≠ req.uuid →
     x2aWdiffTransferServer vol req = .ok ⟨"different-uuid", none, vol⟩) ∧
  (vol.dirExists = true → vol.sm.state ≠ aStopped →
   (req.clientType = "proxy" → vol.uuid = req.uuid) →
   getRelation (getLatestSnapshot vol.diffMgr vol.metaState) req.diff
       ≠ Relation.applicableDiff →
     x2aWdiffTransferServer vol req
       = .ok ⟨getRelationStr (getRelation
           (getLatestSnapshot vol.diffMgr vol.metaState) req.diff),
           none, vol⟩) ∧
  (∀ res, x2aWdiffTransferServer vol req = .ok res →
     res.reply ∈ ["ok", "archive-not-found", "stopped", "different-uuid",
                  "too-new-diff", "too-old-diff", "not-applicable-diff"]) ∧
  (∀ res, x2aWdiffTransferServer vol req = .ok res → res.reply ≠ "ok" →
     res.entered = none ∧ res.vol = vol) ∧
  (∀ res, x2aWdiffTransferServer vol req = .ok res → res.entered ≠ none →
     getRelation (getLatestSnapshot vol.diffMgr vol.metaState) req.diff
         = Relation.applicableDiff ∧
       res.reply = "ok" ∧ res.entered = some atWdiffRecv)

/-! # Theorems -/

/-- C8: if the full-sync server receives bulkLb equal to 0 in the initial
parameter message, it raises a protocol error before opening the
state-machine transaction: the handler returns the bulkLb protocol error for
every volume state (the result does not depend on vol at all), so the
volume state and its state file are unchanged by the failed request. -/
theorem fullSync_bulkLbZero_error_before_transaction
    (vol : ArchiveVol) (prm : FullSyncParams) (chunks : Nat → FsChunk)
    (fuel gidB gidE : Nat)
    (hhost : prm.hostType = "storageD") (hbulk : prm.bulkLb = 0) :
    x2aDirtyFullSyncServer vol prm chunks fuel gidB gidE
      = some (.error "bulkLb is zero") := by
  simp [x2aDirtyFullSyncServer, hhost, hbulk]

/-- Witness for C8 at a concrete volume and parameter set. -/
theorem fullSync_bulkLbZero_error_before_transaction_witness :
    (fsPrm0.hostType = "storageD" ∧ fsPrm0.bulkLb = 0) ∧
    x2aDirtyFullSyncServer archVol0 fsPrm0 zeroChunks 5 0 0
      = some (.error "bulkLb is zero") :=
  ⟨⟨rfl, rfl⟩,
   fullSync_bulkLbZero_error_before_transaction archVol0 fsPrm0 zeroChunks
     5 0 0 rfl rfl⟩

/-- C9 counterexample: on mode Snappy the input consisting of the single
value 5 (a declared uncompressed length of 5 followed by no data) is not a
valid compressed stream: uncompress fails on it, so composing compress after
uncompress cannot return the input, contradicting the claim that
compress composed with uncompress is the identity on every input. -/
theorem codec_compress_after_uncompress_counterexample :
    uncompressorRun CompressorMode.Snappy [5] = none ∧
    ¬ ∃ z, uncompressorRun CompressorMode.Snappy [5] = some z ∧
        compressorRun CompressorMode.Snappy z = [5] := by
  refine ⟨rfl, ?_⟩
  rintro ⟨z, hz, -⟩
  simp [uncompressorRun] at hz

/-- C9 amended: for every supported codec mode, uncompress after compress is
the identity; compress after uncompress is the identity on mode AsIs and on
every valid compressed stream (the image of compress); on the compressing
modes uncompress is fallible and rejects malformed input, so the second
composition is not the identity on arbitrary input. -/
theorem codec_roundTrip_amended :
    (∀ m x, uncompressorRun m (compressorRun m x) = some x) ∧
    (∀ y, (uncompressorRun CompressorMode.AsIs y).map
        (compressorRun CompressorMode.AsIs) = some y) ∧
    (∀ m x, (uncompressorRun m (compressorRun m x)).map (compressorRun m)
        = some (compressorRun m x)) := by
  have h1 : ∀ m x, uncompressorRun m (compressorRun m x) = some x := by
    intro m x
    cases m <;> simp [compressorRun, uncompressorRun]
  refine ⟨h1, ?_, ?_⟩
  · intro y
    simp [compressorRun, uncompressorRun]
  · intro m x
    rw [h1]
    rfl

/-- C6 counterexample: a received header block of the right size whose salt
field differs from the fixed salt is accepted by popHeader, contradicting
the claim that popHeader fails on a received header whose pbs or salt
differs. -/
theorem popHeader_accepts_differing_salt :
    receiverPopHeader logPrm0 (some ⟨4096, logHdrBadSalt⟩)
      = .ok (some logHdrBadSalt) ∧
    logHdrBadSalt.salt ≠ logPrm0.salt := by
  refine ⟨rfl, ?_⟩
  decide

/-- C6 amended: after setParams fixes pbs and salt, the Sender checks both
against every header: pushHeader and pushIo fail whenever the header pbs or
salt differs.  The Receiver's popHeader checks only that the received header
block's raw size equals the fixed pbs, failing on a size mismatch; it
performs no salt check and accepts any non-end header of the right size
(salt mismatches only surface later in popIo's per-IO checksum
verification). -/
theorem logTransport_pbs_salt_enforcement
    (p : LogTransportParams) (q : List CompressedDataW)
    (h : LogPackHeaderW) (r : LogRecordW) (ioSize : Nat)
    (hmm : h.pbs ≠ p.pbs ∨ h.salt ≠ p.salt) :
    (∃ e, senderPushHeader p q h = .error e) ∧
    (∃ e, senderPushIo p q h r ioSize = .error e) ∧
    (∀ cd : CompressedDataW, cd.rawSize ≠ p.pbs →
      ∃ e, receiverPopHeader p (some cd) = .error e) ∧
    (∀ cd : CompressedDataW, cd.rawSize = p.pbs → cd.header.isEnd = false →
      receiverPopHeader p (some cd) = .ok (some cd.header)) := by
  have hv : ∃ e, senderVerifyPbsAndSalt p h = .error e := by
    unfold senderVerifyPbsAndSalt
    rcases hmm with hp | hs
    · exact ⟨_, if_pos hp⟩
    · by_cases hp : h.pbs ≠ p.pbs
      · exact ⟨_, if_pos hp⟩
      · rw [if_neg hp, if_pos hs]
        exact ⟨_, rfl⟩
  obtain ⟨e, he⟩ := hv
  refine ⟨⟨e, ?_⟩, ⟨e, ?_⟩, ?_, ?_⟩
  · unfold senderPushHeader
    rw [he]
  · unfold senderPushIo
    rw [he]
  · intro cd hcd
    exact ⟨"invalid pack header size", by simp [receiverPopHeader, hcd]⟩
  · intro cd hcd hend
    simp [receiverPopHeader, hcd, hend]

/-- Witness for C6 amended at concrete parameters: a header with mismatched
salt is rejected by the sender. -/
theorem logTransport_pbs_salt_enforcement_witness :
    (logHdrBadSalt.pbs ≠ logPrm0.pbs ∨ logHdrBadSalt.salt ≠ logPrm0.salt) ∧
    (∃ e, senderPushHeader logPrm0 [] logHdrBadSalt = .error e) :=
  ⟨Or.inr (by decide),
   (logTransport_pbs_salt_enforcement logPrm0 [] logHdrBadSalt ⟨true, 1⟩ 0
      (Or.inr (by decide))).1⟩

/-- C2: evaluation of c2sStopServer at the failing input.  Once every task
has stopped and the state is stable (for example Master, which is not in the
transient set), the wait loop of the source has no break statement: it spins
forever without incrementing its timeout counter, so it neither exits nor
times out, for every iteration bound.  Moreover the code after the loop
guards the transition with st != sMaster || st != sSlave, a tautology, so
even if the loop could exit, every volume would be acknowledged and left
unchanged and a Master volume would never reach Stopped. -/
theorem c2sStopServer_wait_never_exits :
    (∀ fuel, c2sStopWaitLoop defaultTimeout fuel 0 sMaster = none) ∧
    (∀ vol : StorageVol, c2sStopServerAfterLoop vol = .ok (none, vol)) ∧
    c2sStopTransient sMaster = false := by
  refine ⟨?_, ?_, by decide⟩
  · intro fuel
    induction fuel with
    | zero => rfl
    | succ fuel ih =>
      unfold c2sStopWaitLoop
      rw [if_neg (by decide), if_neg (by decide)]
      exact ih
  · intro vol
    unfold c2sStopServerAfterLoop
    rw [if_pos ?_]
    by_cases hm : vol.sm.state = sMaster
    · exact Or.inr (by rw [hm]; decide)
    · exact Or.inl hm

/-- Draining a closed error-free queue by repeated pop yields exactly the
queued items and empties the queue. -/
theorem drainPop_closed {α : Type} :
    ∀ (l : List α) (q : BoundedQueueM α), q.isError = false →
      q.closed = true → q.queue = l →
      drainPop l.length q = (l, { q with queue := [] }) := by
  intro l
  induction l with
  | nil =>
    intro q herr hcl hq
    simp only [List.length_nil, drainPop]
    cases q
    simp_all
  | cons t l ih =>
    intro q herr hcl hq
    have hpop : q.popQ = (.ok t, { q with queue := l }) := by
      simp [BoundedQueueM.popQ, herr, hq]
    simp only [List.length_cons, drainPop, hpop]
    rw [ih { q with queue := l } herr hcl rfl]

/-- C10: BoundedQueue close and error semantics
(src/include/thread_util.hpp lines 565-728).  After sync, every push fails
with ClosedError while pop drains the items pushed before the close in FIFO
order and the bool pop reports end exactly once the queue is empty; after
error, both push and pop throw; and while the queue is open and not full a
push appends at the back, which with the front-dequeuing pop gives the FIFO
order. -/
theorem boundedQueue_close_error_semantics (q : BoundedQueueM Nat) (t : Nat)
    (he : q.isError = false) :
    (q.syncQ = .ok { q with closed := true }) ∧
    (({ q with closed := true } : BoundedQueueM Nat).push t
       = (.closedError, { q with closed := true })) ∧
    (drainPop q.queue.length { q with closed := true }
       = (q.queue, { q with closed := true, queue := [] })) ∧
    (({ q with closed := true, queue := [] } : BoundedQueueM Nat).popB
       = (.ended, { q with closed := true, queue := [] })) ∧
    (q.errorQ.push t = (.queueError, q.errorQ)) ∧
    (q.errorQ.popQ = (.queueError, q.errorQ)) ∧
    (q.closed = false → q.queue.length < q.size →
       (q.push t).1 = .ok ∧ (q.push t).2.queue = q.queue ++ [t]) := by
  refine ⟨?_, ?_, ?_, ?_, ?_, ?_, ?_⟩
  · simp [BoundedQueueM.syncQ, he]
  · simp [BoundedQueueM.push, he]
  · exact drainPop_closed q.queue { q with closed := true } he rfl rfl
  · simp [BoundedQueueM.popB, BoundedQueueM.popQ, he]
  · simp [BoundedQueueM.push, BoundedQueueM.errorQ]
  · simp [BoundedQueueM.popQ, BoundedQueueM.errorQ]
  · intro hcl hfull
    constructor
    · simp [BoundedQueueM.push, he, hcl, Nat.not_le_of_lt hfull]
    · simp [BoundedQueueM.push, he, hcl, Nat.not_le_of_lt hfull]

/-- Witness for C10 at a concrete queue holding two items. -/
theorem boundedQueue_close_error_semantics_witness :
    queue0.isError = false ∧
    ((queue0.syncQ = .ok { queue0 with closed := true }) ∧
     (({ queue0 with closed := true } : BoundedQueueM Nat).push 5
        = (.closedError, { queue0 with closed := true })) ∧
     (drainPop queue0.queue.length { queue0 with closed := true }
        = (queue0.queue, { queue0 with closed := true, queue := [] })) ∧
     (({ queue0 with closed := true, queue := [] } :
          BoundedQueueM Nat).popB
        = (.ended, { queue0 with closed := true, queue := [] })) ∧
     (queue0.errorQ.push 5 = (.queueError, queue0.errorQ)) ∧
     (queue0.errorQ.popQ = (.queueError, queue0.errorQ)) ∧
     (queue0.closed = false → queue0.queue.length < queue0.size →
        (queue0.push 5).1 = .ok ∧
        (queue0.push 5).2.queue = queue0.queue ++ [5])) :=
  ⟨rfl, boundedQueue_close_error_semantics queue0 5 rfl⟩

/-- C1 counterexample: the volume archVolRestore has a nonzero Restore
action counter, yet the wdiff-transfer handler succeeds and takes the state
machine through the transient state WdiffRecv, because x2aWdiffTransferServer
opens its StateMachineTransaction without any verifyNoArchiveActionRunning
check (src/src/archive.hpp lines 478-568). -/
theorem wdiffTransfer_transitions_with_action_running :
    isAllZero archVolRestore.ac archiveActions = false ∧
    acValue archVolRestore.ac aRestore = 1 ∧
    x2aWdiffTransferServer archVolRestore wdiffReq0
      = .ok ⟨"ok", some atWdiffRecv,
          { archVolRestore with
              sm := ⟨archiveSmTbl, aArchived⟩,
              diffMgr := [wdiffReq0.diff] }⟩ ∧
    atWdiffRecv ∈ [atInitVol, atClearVol, atFullSync, atHashSync,
                   atWdiffRecv, atStop, atStart] := by
  exact ⟨by decide, by decide, rfl, by decide⟩

/-- C1 amended: for a volume whose ActionCounter is nonzero in any of the
actions Merge, Apply, Restore, ReplSync, every archive handler that opens a
StateMachineTransaction except the wdiff-transfer handler fails without
transitioning, because each first runs verifyNoArchiveActionRunning
(init-vol, clear-vol, start, dirty-full-sync), and the stop handler's wait
predicate stays false so it does not reach its transition; the
wdiff-transfer handler alone performs no such check and can still enter the
transient state WdiffRecv. -/
theorem archive_action_counter_gating (vol : ArchiveVol)
    (hac : isAllZero vol.ac archiveActions = false) :
    (∃ e, c2aInitVolServer vol = .error e) ∧
    (∃ e, c2aClearVolServer vol = .error e) ∧
    (∃ e, c2aStartServer vol = .error e) ∧
    (∀ prm chunks fuel gidB gidE, ∃ e,
       x2aDirtyFullSyncServer vol prm chunks fuel gidB gidE
         = some (.error e)) ∧
    c2aStopWaitPred vol = false := by
  have hv : verifyNoArchiveActionRunning vol.ac
      = .error "verifyNoActionRunning" := by
    simp [verifyNoArchiveActionRunning, verifyNoActionRunning, hac]
  refine ⟨?_, ?_, ?_, ?_, ?_⟩
  · exact ⟨"verifyNoActionRunning", by simp [c2aInitVolServer, hv]⟩
  · exact ⟨"verifyNoActionRunning", by simp [c2aClearVolServer, hv]⟩
  · exact ⟨"verifyNoActionRunning", by simp [c2aStartServer, hv]⟩
  · intro prm chunks fuel gidB gidE
    unfold x2aDirtyFullSyncServer
    by_cases h1 : prm.hostType ≠ "storageD" ∧ prm.hostType ≠ "archiveD"
    · rw [if_pos h1]
      exact ⟨"invalid hostType", rfl⟩
    · rw [if_neg h1]
      by_cases h2 : prm.bulkLb = 0
      · rw [if_pos h2]
        exact ⟨"bulkLb is zero", rfl⟩
      · rw [if_neg h2, hv]
        exact ⟨"verifyNoActionRunning", rfl⟩
  · simp [c2aStopWaitPred, hac]

/-- chunkList at zero remaining is empty. -/
theorem chunkList_zero (b : Nat) : chunkList b 0 = [] := by
  unfold chunkList
  simp

/-- chunkList unfolding for positive bulk and remaining. -/
theorem chunkList_cons (b n : Nat) (hb : 0 < b) (hn : 0 < n) :
    chunkList b n = min b n :: chunkList b (n - min b n) := by
  conv_lhs => unfold chunkList
  rw [dif_neg (by omega)]

/-- One chunk reduces the ceiling-division chunk count by exactly one. -/
theorem ceilDiv_step (b r : Nat) (hb : 0 < b) (hr : 0 < r) :
    (r + b - 1) / b = (r - min b r + b - 1) / b + 1 := by
  by_cases hrb : r ≤ b
  · have h2 : r - min b r + b - 1 = b - 1 := by omega
    rw [h2, Nat.div_eq_of_lt (show b - 1 < b by omega)]
    have h3 : (r + b - 1) / b = 1 :=
      Nat.div_eq_of_lt_le (by omega) (by omega)
    omega
  · have h2 : r + b - 1 = (r - min b r + b - 1) + b := by omega
    rw [h2, Nat.add_div_right _ hb]

/-- The number of chunks is the ceiling of remaining over bulk. -/
theorem chunkList_length (b : Nat) (hb : 0 < b) :
    ∀ n, (chunkList b n).length = (n + b - 1) / b := by
  intro n
  induction n using Nat.strong_induction_on with
  | _ n ih =>
    by_cases hn : n = 0
    · subst hn
      rw [chunkList_zero]
      have h0 : (b - 1) / b = 0 := Nat.div_eq_of_lt (by omega)
      simp [h0]
    · rw [chunkList_cons b n hb (by omega), List.length_cons,
        ih (n - min b n) (by omega),
        ceilDiv_step b n hb (by omega)]

/-- Every chunk is positive and at most the bulk size. -/
theorem chunkList_mem (b : Nat) (hb : 0 < b) :
    ∀ n, ∀ c ∈ chunkList b n, 0 < c ∧ c ≤ b := by
  intro n
  induction n using Nat.strong_induction_on with
  | _ n ih =>
    intro c hc
    by_cases hn : n = 0
    · subst hn
      rw [chunkList_zero] at hc
      cases hc
    · rw [chunkList_cons b n hb (by omega)] at hc
      rcases List.mem_cons.mp hc with h | h
      · subst h
        omega
      · exact ih (n - min b n) (by omega) c h

/-- Every chunk except the last equals the bulk size. -/
theorem chunkList_dropLast (b : Nat) (hb : 0 < b) :
    ∀ n, ∀ c ∈ (chunkList b n).dropLast, c = b := by
  intro n
  induction n using Nat.strong_induction_on with
  | _ n ih =>
    intro c hc
    by_cases hn : n = 0
    · subst hn
      rw [chunkList_zero] at hc
      cases hc
    · rw [chunkList_cons b n hb (by omega)] at hc
      by_cases hbn : n ≤ b
      · have h1 : n - min b n = 0 := by omega
        rw [h1, chunkList_zero] at hc
        simp at hc
      · rcases hl : chunkList b (n - min b n) with _ | ⟨y, zs⟩
        · rw [chunkList_cons b (n - min b n) hb (by omega)] at hl
          cases hl
        · rw [hl, List.dropLast_cons₂] at hc
          rcases List.mem_cons.mp hc with h | h
          · omega
          · apply ih (n - min b n) (by omega) c
            rw [hl]
            exact h

/-- One-step unfolding of the storage send loop. -/
theorem sendLoop_succ (b fuel n : Nat) :
    c2sFullSyncSendLoop b (fuel + 1) n =
      if n = 0 then some [] else
        match c2sFullSyncSendLoop b fuel (n - min b n % 65536) with
        | some l => some (min b n % 65536 :: l)
        | none => none := rfl

/-- For bulk sizes below 65536 the storage send loop terminates and sends
exactly the intended chunk decomposition. -/
theorem sendLoop_eq (b : Nat) (hb : 0 < b) (hb2 : b < 65536) :
    ∀ fuel n, n < fuel →
      c2sFullSyncSendLoop b fuel n = some (chunkList b n) := by
  intro fuel
  induction fuel with
  | zero =>
    intro n h
    omega
  | succ fuel ih =>
    intro n h
    by_cases hn : n = 0
    · subst hn
      rw [sendLoop_succ, if_pos rfl, chunkList_zero]
    · have hmod : min b n % 65536 = min b n := Nat.mod_eq_of_lt (by omega)
      rw [sendLoop_succ, if_neg hn, hmod, ih (n - min b n) (by omega),
        chunkList_cons b n hb (by omega)]

/-- One-step unfolding of the archive receive loop. -/
theorem recvLoop_succ (b : Nat) (chunks : Nat → FsChunk) (fuel r c : Nat) :
    x2aFullSyncRecvLoop b chunks (fuel + 1) r c =
      if r = 0 then some (.ok c)
      else
        if (chunks c).encSize = 0 then some (.error "encSize is zero")
        else if (chunks c).decSize ≠ min b r % 65536 * 512 then
          some (.error "decSize differs")
        else
          x2aFullSyncRecvLoop b chunks fuel (r - min b r % 65536) (c + 1)
  := rfl

/-- For bulk sizes below 65536 the archive receive loop on a well-behaved
chunk stream terminates after exactly the ceiling number of iterations. -/
theorem recvLoop_good (sizeLb b : Nat) (hb : 0 < b) (hb2 : b < 65536) :
    ∀ fuel c r, r < fuel → r = sizeLb - c * b →
      x2aFullSyncRecvLoop b (goodChunks sizeLb b) fuel r c
        = some (.ok (c + (r + b - 1) / b)) := by
  intro fuel
  induction fuel with
  | zero =>
    intro c r h _
    omega
  | succ fuel ih =>
    intro c r h hr
    by_cases hrz : r = 0
    · subst hrz
      rw [recvLoop_succ, if_pos rfl]
      have h0 : (0 + b - 1) / b = 0 := Nat.div_eq_of_lt (by omega)
      rw [h0]
      simp
    · have hmod : min b r % 65536 = min b r := Nat.mod_eq_of_lt (by omega)
      have hdec : (goodChunks sizeLb b c).decSize = min b r % 65536 * 512 := by
        simp [goodChunks, hmod, ← hr]
      have hcb : (c + 1) * b = c * b + b := by ring
      rw [recvLoop_succ, if_neg hrz, if_neg (by simp [goodChunks]),
        if_neg (not_ne_iff.mpr hdec), hmod,
        ih (c + 1) (r - min b r) (by omega) (by omega),
        ceilDiv_step b r hb (by omega)]
      have : c + 1 + (r - min b r + b - 1) / b
          = c + ((r - min b r + b - 1) / b + 1) := by omega
      rw [this]

/-- C4 counterexample: with sizeLb = bulkLb = 65536 (both accepted: the
server checks only bulkLb nonzero) the claim predicts termination after
ceil(65536 / 65536) = 1 iteration transferring min(bulkLb, remainingLb) =
65536 blocks; but the source truncates the chunk block count to uint16_t, so
each iteration transfers 65536 mod 65536 = 0 blocks and neither the client
send loop nor the server receive loop has terminated after 2 iterations
(they never terminate). -/
theorem fullSync_uint16_truncation_counterexample :
    c2sFullSyncSendLoop 65536 2 65536 = none ∧
    x2aFullSyncRecvLoop 65536 zeroChunks 2 65536 0 = none ∧
    min 65536 65536 % 65536 = 0 ∧
    (65536 + 65536 - 1) / 65536 = 1 := by
  refine ⟨rfl, rfl, by decide, by decide⟩

/-- C4 amended: for every sizeLb and every bulkLb with 0 < bulkLb < 65536
(the uint16_t truncation of the chunk block count is inactive), the storage
send loop and the archive receive loop terminate after exactly
ceil(sizeLb / bulkLb) iterations, each iteration transferring
min(bulkLb, remainingLb) logical blocks, so only the last chunk is shorter
than bulkLb; for bulkLb at or above 65536 the truncated chunk count can be
wrong or zero and the loops need not terminate. -/
theorem fullSync_chunking (sizeLb bulkLb : Nat) (hs : 0 < sizeLb)
    (hb : 0 < bulkLb) (hb2 : bulkLb < 65536) :
    (c2sFullSyncSendLoop bulkLb (sizeLb + 1) sizeLb
       = some (chunkList bulkLb sizeLb)) ∧
    ((chunkList bulkLb sizeLb).length = (sizeLb + bulkLb - 1) / bulkLb) ∧
    (∀ c ∈ chunkList bulkLb sizeLb, 0 < c ∧ c ≤ bulkLb) ∧
    (∀ c ∈ (chunkList bulkLb sizeLb).dropLast, c = bulkLb) ∧
    (x2aFullSyncRecvLoop bulkLb (goodChunks sizeLb bulkLb) (sizeLb + 1)
        sizeLb 0 = some (.ok ((sizeLb + bulkLb - 1) / bulkLb))) := by
  refine ⟨sendLoop_eq bulkLb hb hb2 (sizeLb + 1) sizeLb (by omega),
    chunkList_length bulkLb hb sizeLb,
    chunkList_mem bulkLb hb sizeLb,
    chunkList_dropLast bulkLb hb sizeLb, ?_⟩
  have := recvLoop_good sizeLb bulkLb hb hb2 (sizeLb + 1) 0 sizeLb
    (by omega) (by omega)
  simpa using this

/-- Witness for C4 amended: sizeLb = 5, bulkLb = 2 gives chunks [2, 2, 1]
and 3 iterations on both sides. -/
theorem fullSync_chunking_witness :
    (0 < 5 ∧ 0 < 2 ∧ 2 < 65536) ∧
    ((c2sFullSyncSendLoop 2 6 5 = some (chunkList 2 5)) ∧
     ((chunkList 2 5).length = (5 + 2 - 1) / 2) ∧
     (∀ c ∈ chunkList 2 5, 0 < c ∧ c ≤ 2) ∧
     (∀ c ∈ (chunkList 2 5).dropLast, c = 2) ∧
     (x2aFullSyncRecvLoop 2 (goodChunks 5 2) 6 5 0
        = some (.ok ((5 + 2 - 1) / 2)))) :=
  ⟨⟨by decide, by decide, by decide⟩,
   fullSync_chunking 5 2 (by decide) (by decide) (by decide)⟩

/-- readSome is unchanged when its input has already been filled, since
fillDiffIo is the first step of readSome. -/
theorem readSome_after_fill (base : List Nat) (b : Nat) (s : VfsState)
    (h : fillDiffIo (fillDiffIo s) = fillDiffIo s) :
    readSome base b (fillDiffIo s) = readSome base b s := by
  unfold readSome
  rw [h]

/-- scanAll is unchanged when its start state has already been filled. -/
theorem scanAll_fill (base : List Nat) (b f : Nat) (s : VfsState)
    (h : fillDiffIo (fillDiffIo s) = fillDiffIo s) :
    scanAll base b f (fillDiffIo s) = scanAll base b f s := by
  cases f with
  | zero => rfl
  | succ f =>
    simp only [scanAll]
    rw [readSome_after_fill base b s h]

/-- The first block of the rest of a list is nonempty while the position is
inside the list. -/
theorem take_one_drop_isEmpty (l : List Nat) (m : Nat) (h : m < l.length) :
    ((l.drop m).take 1).isEmpty = false := by
  have hl : (l.drop m).length = l.length - m := List.length_drop m l
  cases hld : l.drop m with
  | nil =>
    rw [hld] at hl
    simp at hl
    omega
  | cons x xs =>
    rfl

/-- After the overlay ends, the scanner copies the rest of the base. -/
theorem scan_vfsC (base : List Nat) :
    ∀ f m, m ≤ base.length → base.length - m < f →
      scanAll base 1 f (vfsC m) = base.drop m := by
  intro f
  induction f with
  | zero =>
    intro m hm hf
    omega
  | succ f ih =>
    intro m hm hf
    have hcap : min 1 65535 = 1 := by omega
    by_cases hml : m < base.length
    · have hm2 : min 1 (base.length - m) = 1 := by omega
      have hstep : readSome base 1 (vfsC m)
          = ((base.drop m).take 1, vfsC (m + 1)) := by
        simp [readSome, fillDiffIo, readBase, vfsC, hcap, hm2]
      have hne : ((base.drop m).take 1).isEmpty = false :=
        take_one_drop_isEmpty base m hml
      simp only [scanAll, hstep, hne, Bool.false_eq_true, if_false]
      rw [ih (m + 1) (by omega) (by omega)]
      have hdd : base.drop (m + 1) = (base.drop m).drop 1 := by
        rw [List.drop_drop]
      rw [hdd, List.take_append_drop]
    · have hm' : m = base.length := by omega
      subst hm'
      have hstep : readSome base 1 (vfsC base.length)
          = ([], vfsC base.length) := by
        simp [readSome, fillDiffIo, readBase, vfsC, hcap]
      simp [scanAll, hstep, List.drop_length]

/-- Inside the all-zero record, the scanner emits zero blocks and skips the
base until the record is exhausted, then continues with the rest of the
base. -/
theorem scan_vfsB (base : List Nat) (a n : Nat) (_hn : 0 < n)
    (hle : a + n ≤ base.length) :
    ∀ f j, 1 ≤ j → j ≤ n → base.length - (a + j) < f →
      scanAll base 1 f (vfsB a n j)
        = List.replicate (n - j) 0 ++ base.drop (a + n) := by
  intro f
  induction f with
  | zero =>
    intro j h1 h2 hf
    omega
  | succ f ih =>
    intro j h1 h2 hf
    have hcap : min 1 65535 = 1 := by omega
    by_cases hj : j = n
    · rw [hj] at hf ⊢
      have hfB : fillDiffIo (vfsB a n n) = vfsC (a + n) := by
        simp [fillDiffIo, vfsB, vfsC, emptyRec]
      have hidem : fillDiffIo (fillDiffIo (vfsB a n n))
          = fillDiffIo (vfsB a n n) := by
        rw [hfB]
        simp [fillDiffIo, vfsC]
      have heq : scanAll base 1 (f + 1) (vfsB a n n)
          = scanAll base 1 (f + 1) (vfsC (a + n)) := by
        rw [← scanAll_fill base 1 (f + 1) (vfsB a n n) hidem, hfB]
      rw [heq, scan_vfsC base (f + 1) (a + n) hle (by omega)]
      simp
    · have hjn : j < n := by omega
      have hm : min 1 (n - j) = 1 := by omega
      have hstep : readSome base 1 (vfsB a n j) = ([0], vfsB a n (j + 1)) := by
        simp [readSome, fillDiffIo, readWdiff, vfsB, hj, hm, hcap,
          Nat.add_assoc]
      simp only [scanAll, hstep, List.isEmpty_cons, Bool.false_eq_true,
        if_false]
      rw [ih (j + 1) (by omega) (by omega) (by omega)]
      have hrep : List.replicate (n - j) (0 : Nat)
          = 0 :: List.replicate (n - (j + 1)) 0 := by
        have h3 : n - j = (n - (j + 1)) + 1 := by omega
        rw [h3, List.replicate_succ]
      rw [hrep]
      simp

/-- In front of the record, the scanner copies the base up to the record
address, then emits the zero blocks and the rest of the base. -/
theorem scan_vfsA (base : List Nat) (a n : Nat) (hn : 0 < n)
    (hle : a + n ≤ base.length) :
    ∀ f k, k ≤ a → base.length - k < f →
      scanAll base 1 f (vfsA a n k)
        = (base.drop k).take (a - k) ++ List.replicate n 0
            ++ base.drop (a + n) := by
  intro f
  induction f with
  | zero =>
    intro k hk hf
    omega
  | succ f ih =>
    intro k hk hf
    have hcap : min 1 65535 = 1 := by omega
    by_cases hka : k = a
    · rw [hka] at hf ⊢
      have hm : min 1 n = 1 := by omega
      have hstep : readSome base 1 (vfsA a n a) = ([0], vfsB a n 1) := by
        simp [readSome, fillDiffIo, readWdiff, vfsA, vfsB, hn.ne, hm, hcap]
      simp only [scanAll, hstep, List.isEmpty_cons, Bool.false_eq_true,
        if_false]
      rw [scan_vfsB base a n hn hle f 1 (by omega) (by omega) (by omega)]
      have hrep : List.replicate n (0 : Nat)
          = 0 :: List.replicate (n - 1) 0 := by
        have h3 : n = (n - 1) + 1 := by omega
        conv_lhs => rw [h3]
        rw [List.replicate_succ]
      rw [hrep]
      simp
    · have hklta : k < a := by omega
      have hm1 : min 1 (a - k) = 1 := by omega
      have hm2 : min 1 (base.length - k) = 1 := by omega
      have hstep : readSome base 1 (vfsA a n k)
          = ((base.drop k).take 1, vfsA a n (k + 1)) := by
        simp [readSome, fillDiffIo, readBase, vfsA, hn.ne, hka, hm1, hm2,
          hcap]
      have hkl : k < base.length := by omega
      have hne2 : ((base.drop k).take 1).isEmpty = false :=
        take_one_drop_isEmpty base k hkl
      simp only [scanAll, hstep, hne2, Bool.false_eq_true, if_false]
      rw [ih (k + 1) (by omega) (by omega)]
      have hdrop : base.drop (k + 1) = (base.drop k).drop 1 := by
        rw [List.drop_drop]
      have hsub : a - (k + 1) = a - k - 1 := by omega
      have htake : (base.drop k).take (a - k)
          = (base.drop k).take 1 ++ ((base.drop k).drop 1).take (a - k - 1)
          := by
        rw [← List.take_add]
        congr 1
        omega
      rw [hsub, hdrop, htake]
      simp

/-- C7: for every base image and every wdiff holding one all-zero record
over the blocks from a of length n lying inside the base, the block stream
produced by the virtual full scanner equals the base with those blocks
replaced by zero blocks; and whenever the read address equals the current
record address, the scanner emits min(blks, remaining record blocks)
zero-filled blocks for an allZero or discard record and skips the base
reader by the same number of blocks.  Blocks model 512-byte logical blocks,
0 the zero-filled block. -/
theorem virtualFullScanner_allZero_overlay (base : List Nat) (a n : Nat)
    (hn : 0 < n) (hle : a + n ≤ base.length) :
    scanAll base 1 (base.length + 1)
        (VfsState.init [⟨a, n, DiffRecKind.allZero⟩])
      = base.take a ++ List.replicate n 0 ++ base.drop (a + n) ∧
    (∀ blks s, 0 < blks → blks ≤ 65535 → fillDiffIo s = s →
      s.emptyWdiff = false → s.isEndDiff = false →
      s.addr = s.recIo.ioAddress + s.offInIo →
      (s.recIo.kind = DiffRecKind.allZero ∨
       s.recIo.kind = DiffRecKind.discard) →
      readSome base blks s
        = (List.replicate (min blks (s.recIo.ioBlocks - s.offInIo)) 0,
           { s with
             offInIo := s.offInIo + min blks (s.recIo.ioBlocks - s.offInIo),
             basePos := s.basePos + min blks (s.recIo.ioBlocks - s.offInIo),
             addr := s.addr + min blks (s.recIo.ioBlocks - s.offInIo) })) := by
  constructor
  · have hfillInit :
        fillDiffIo (VfsState.init [⟨a, n, DiffRecKind.allZero⟩])
          = vfsA a n 0 := by
      simp [fillDiffIo, VfsState.init, emptyRec, vfsA]
    have hidem :
        fillDiffIo (fillDiffIo (VfsState.init [⟨a, n, DiffRecKind.allZero⟩]))
          = fillDiffIo (VfsState.init [⟨a, n, DiffRecKind.allZero⟩]) := by
      rw [hfillInit]
      simp [fillDiffIo, vfsA, hn.ne]
    have heq : scanAll base 1 (base.length + 1)
          (VfsState.init [⟨a, n, DiffRecKind.allZero⟩])
        = scanAll base 1 (base.length + 1) (vfsA a n 0) := by
      rw [← scanAll_fill base 1 (base.length + 1)
        (VfsState.init [⟨a, n, DiffRecKind.allZero⟩]) hidem, hfillInit]
    rw [heq,
      scan_vfsA base a n hn hle (base.length + 1) 0 (Nat.zero_le a)
        (by omega)]
    simp
  · intro blks s hb hb2 hfix hw he haddr hkind
    have hcap : min blks 65535 = blks := by omega
    rcases hkind with h | h <;>
      simp [readSome, hfix, hw, he, hcap, haddr, readWdiff, h]

/-- Witness for C7: base [1, 2, 3, 4, 5] with an all-zero record over
blocks [1, 3) scans to [1, 0, 0, 4, 5]. -/
theorem virtualFullScanner_allZero_overlay_witness :
    (0 < 2 ∧ 1 + 2 ≤ ([1, 2, 3, 4, 5] : List Nat).length) ∧
    scanAll [1, 2, 3, 4, 5] 1 (([1, 2, 3, 4, 5] : List Nat).length + 1)
        (VfsState.init [⟨1, 2, DiffRecKind.allZero⟩])
      = ([1, 2, 3, 4, 5] : List Nat).take 1 ++ List.replicate 2 0
          ++ ([1, 2, 3, 4, 5] : List Nat).drop (1 + 2) :=
  ⟨⟨by decide, by decide⟩,
   (virtualFullScanner_allZero_overlay [1, 2, 3, 4, 5] 1 2 (by decide)
      (by decide)).1⟩

/-- C3 counterexample: the gid pair the storage client names at the end of
full sync is (0, 1), a dirty snapshot, not the clean initial snapshot
gidB = gidE = 0 stated by the claim (src/src/storage.hpp lines 326-330,
where gidE is hard-coded to 1 under a TODO to take a real snapshot). -/
theorem fullSync_gidPair_counterexample :
    c2sFullSyncGidPair = (0, 1) ∧ c2sFullSyncGidPair ≠ (0, 0) ∧
    (MetaSnap.mk c2sFullSyncGidPair.1 c2sFullSyncGidPair.2).isClean
      = false := by
  refine ⟨rfl, by decide, by decide⟩

/-- C3 amended: on completion of a storage-initiated full sync, the archive
server persists MetaState(MetaSnap(gidB, gidE), curTime) and the uuid,
transitions the volume to Archived and sends an Ack, where the pair
(gidB, gidE) named by the storage client is the dirty pair
gidB = 0, gidE = 1. -/
theorem fullSync_completion_persists_metaState
    (vol : ArchiveVol) (prm : FullSyncParams) (fuel : Nat)
    (hhost : prm.hostType = "storageD")
    (hb : 0 < prm.bulkLb) (hb2 : prm.bulkLb < 65536)
    (hfuel : prm.sizeLb < fuel)
    (hac : isAllZero vol.ac archiveActions = true)
    (hstop : vol.stopState = StopState.NotStopping)
    (hsm : vol.sm.state = aSyncReady)
    (htbl : (aSyncReady, atFullSync) ∈ vol.sm.tbl)
    (htbl2 : (atFullSync, aArchived) ∈ vol.sm.tbl)
    (hfile : vol.fileState = aSyncReady) :
    x2aDirtyFullSyncServer vol prm (goodChunks prm.sizeLb prm.bulkLb) fuel
        c2sFullSyncGidPair.1 c2sFullSyncGidPair.2
      = some (.ok ({ vol with
          sm := { vol.sm with state := aArchived },
          lvSize := some prm.sizeLb,
          metaState := ⟨⟨0, 1⟩, prm.curTime⟩,
          uuid := prm.uuid,
          fileState := aArchived }, true)) := by
  have hb0 : ¬ prm.bulkLb = 0 := by omega
  have hv : verifyNoArchiveActionRunning vol.ac = .ok () := by
    simp [verifyNoArchiveActionRunning, verifyNoActionRunning, hac]
  have htr : vol.sm.tryTransition aSyncReady atFullSync
      = some { vol.sm with state := atFullSync } := by
    simp [StateMachine.tryTransition, hsm, htbl]
  have hcm : ({ vol.sm with state := atFullSync } : StateMachine).commit
      aArchived = some { vol.sm with state := aArchived } := by
    simp [StateMachine.commit, htbl2]
  have hloop := recvLoop_good prm.sizeLb prm.bulkLb hb hb2 fuel 0 prm.sizeLb
    hfuel (by omega)
  simp only [x2aDirtyFullSyncServer, hhost, hstop, hfile, hb0, hv, htr, hcm,
    hloop, c2sFullSyncGidPair]
  simp

/-- Witness for C3 amended at a concrete volume and parameter set. -/
theorem fullSync_completion_persists_metaState_witness :
    (fsPrm1.hostType = "storageD" ∧ 0 < fsPrm1.bulkLb ∧
     fsPrm1.bulkLb < 65536 ∧ fsPrm1.sizeLb < 6 ∧
     isAllZero archVol0.ac archiveActions = true ∧
     archVol0.stopState = StopState.NotStopping ∧
     archVol0.sm.state = aSyncReady ∧
     (aSyncReady, atFullSync) ∈ archVol0.sm.tbl ∧
     (atFullSync, aArchived) ∈ archVol0.sm.tbl ∧
     archVol0.fileState = aSyncReady) ∧
    x2aDirtyFullSyncServer archVol0 fsPrm1
        (goodChunks fsPrm1.sizeLb fsPrm1.bulkLb) 6
        c2sFullSyncGidPair.1 c2sFullSyncGidPair.2
      = some (.ok ({ archVol0 with
          sm := { archVol0.sm with state := aArchived },
          lvSize := some fsPrm1.sizeLb,
          metaState := ⟨⟨0, 1⟩, fsPrm1.curTime⟩,
          uuid := fsPrm1.uuid,
          fileState := aArchived }, true)) :=
  ⟨⟨rfl, by decide, by decide, by decide, by decide, rfl, rfl, by decide,
    by decide, rfl⟩,
   fullSync_completion_persists_metaState archVol0 fsPrm1 6 rfl (by decide)
     (by decide) (by decide) (by decide) rfl rfl (by decide) (by decide) rfl⟩

/-- Every relation tag is one of the canonical reply strings. -/
theorem getRelationStr_mem (r : Relation)
    (h : r ≠ Relation.applicableDiff) :
    getRelationStr r ∈ ["ok", "archive-not-found", "stopped",
      "different-uuid", "too-new-diff", "too-old-diff",
      "not-applicable-diff"] := by
  cases r
  · exact absurd rfl h
  · simp [getRelationStr]
  · simp [getRelationStr]
  · simp [getRelationStr]

/-- C5: for every well-formed wdiff-transfer request (nonempty volume id,
proxy or archive client) on a volume that is not being stopped, the archive
server replies with exactly one of the canonical tags: archive-not-found
when the volume directory does not exist, stopped when the state is Stopped,
different-uuid when a proxy client's uuid differs from the stored uuid, the
relation tag when the diff is not applicable to the latest snapshot; in each
of these cases the volume state is unchanged, and the handler replies ok and
enters the WdiffRecv transition only when the diff is applicable. -/
theorem wdiffTransfer_reply_tags (vol : ArchiveVol) (req : WdiffTransferReq)
    (hvol : req.volId ≠ "")
    (hct : req.clientType = "proxy" ∨ req.clientType = "archive")
    (hstop : vol.stopState = StopState.NotStopping) :
    WdiffReplySpec vol req := by
  have hne : ¬(req.clientType ≠ "proxy" ∧ req.clientType ≠ "archive") := by
    rcases hct with h | h <;> simp [h]
  have hE : x2aWdiffTransferServer vol req =
      (if ¬ vol.dirExists then
         .ok ⟨"archive-not-found", none, vol⟩
       else if vol.sm.state = aStopped then .ok ⟨"stopped", none, vol⟩
       else if req.clientType = "proxy" ∧ vol.uuid ≠ req.uuid then
         .ok ⟨"different-uuid", none, vol⟩
       else if getRelation (getLatestSnapshot vol.diffMgr vol.metaState)
           req.diff ≠ Relation.applicableDiff then
         .ok ⟨getRelationStr (getRelation
             (getLatestSnapshot vol.diffMgr vol.metaState) req.diff),
             none, vol⟩
       else
         match vol.sm.tryTransition aArchived atWdiffRecv with
         | none => .error "transaction"
         | some sm1 =>
           match sm1.commit aArchived with
           | none => .error "commit"
           | some sm2 =>
             .ok ⟨"ok", some atWdiffRecv,
               { vol with sm := sm2,
                          diffMgr := vol.diffMgr ++ [req.diff] }⟩) := by
    unfold x2aWdiffTransferServer
    rw [if_neg hvol, if_neg hne, hstop]
    rfl
  have hmain :
      (x2aWdiffTransferServer vol req
         = .ok ⟨"archive-not-found", none, vol⟩) ∨
      (x2aWdiffTransferServer vol req = .ok ⟨"stopped", none, vol⟩) ∨
      (x2aWdiffTransferServer vol req = .ok ⟨"different-uuid", none, vol⟩) ∨
      (x2aWdiffTransferServer vol req
         = .ok ⟨getRelationStr (getRelation
             (getLatestSnapshot vol.diffMgr vol.metaState) req.diff),
             none, vol⟩ ∧
       getRelation (getLatestSnapshot vol.diffMgr vol.metaState) req.diff
         ≠ Relation.applicableDiff) ∨
      (∃ e, x2aWdiffTransferServer vol req = .error e) ∨
      (getRelation (getLatestSnapshot vol.diffMgr vol.metaState) req.diff
         = Relation.applicableDiff ∧ ∃ sm2,
       x2aWdiffTransferServer vol req
         = .ok ⟨"ok", some atWdiffRecv,
             { vol with sm := sm2,
                        diffMgr := vol.diffMgr ++ [req.diff] }⟩) := by
    by_cases hd : vol.dirExists
    · by_cases hs : vol.sm.state = aStopped
      · right; left
        simp [hE, hd, hs]
      · by_cases hu : req.clientType = "proxy" ∧ vol.uuid ≠ req.uuid
        · right; right; left
          simp [hE, hd, hs, hu]
        · by_cases hr : getRelation
              (getLatestSnapshot vol.diffMgr vol.metaState) req.diff
              = Relation.applicableDiff
          · rcases htr : vol.sm.tryTransition aArchived atWdiffRecv with
              _ | sm1
            · right; right; right; right; left
              exact ⟨"transaction", by simp [hE, hd, hs, hu, hr, htr]⟩
            · rcases hcm : sm1.commit aArchived with _ | sm2
              · right; right; right; right; left
                exact ⟨"commit", by simp [hE, hd, hs, hu, hr, htr, hcm]⟩
              · right; right; right; right; right
                exact ⟨hr, sm2, by simp [hE, hd, hs, hu, hr, htr, hcm]⟩
          · right; right; right; left
            exact ⟨by simp [hE, hd, hs, hu, hr], hr⟩
    · left
      simp [hE, hd]
  unfold WdiffReplySpec
  refine ⟨?_, ?_, ?_, ?_, ?_, ?_, ?_⟩
  · intro h0
    simp [hE, h0]
  · intro h0 h1
    simp [hE, h0, h1]
  · intro h0 h1 h2 h3
    simp [hE, h0, h1, h2, h3]
  · intro h0 h1 h2 h3
    have hu : ¬(req.clientType = "proxy" ∧ vol.uuid ≠ req.uuid) :=
      fun hp => hp.2 (h2 hp.1)
    simp [hE, h0, h1, hu, h3]
  · intro res hres
    rcases hmain with h | h | h | ⟨h, hr⟩ | ⟨e, h⟩ | ⟨hr, sm2, h⟩
    · rw [h] at hres
      cases Except.ok.inj hres
      simp
    · rw [h] at hres
      cases Except.ok.inj hres
      simp
    · rw [h] at hres
      cases Except.ok.inj hres
      simp
    · rw [h] at hres
      cases Except.ok.inj hres
      exact getRelationStr_mem _ hr
    · rw [h] at hres
      simp at hres
    · rw [h] at hres
      cases Except.ok.inj hres
      simp
  · intro res hres hok
    rcases hmain with h | h | h | ⟨h, hr⟩ | ⟨e, h⟩ | ⟨hr, sm2, h⟩
    · rw [h] at hres
      cases Except.ok.inj hres
      exact ⟨rfl, rfl⟩
    · rw [h] at hres
      cases Except.ok.inj hres
      exact ⟨rfl, rfl⟩
    · rw [h] at hres
      cases Except.ok.inj hres
      exact ⟨rfl, rfl⟩
    · rw [h] at hres
      cases Except.ok.inj hres
      exact ⟨rfl, rfl⟩
    · rw [h] at hres
      simp at hres
    · rw [h] at hres
      cases Except.ok.inj hres
      exact absurd rfl hok
  · intro res hres hent
    rcases hmain with h | h | h | ⟨h, hr⟩ | ⟨e, h⟩ | ⟨hr, sm2, h⟩
    · rw [h] at hres
      cases Except.ok.inj hres
      exact absurd rfl hent
    · rw [h] at hres
      cases Except.ok.inj hres
      exact absurd rfl hent
    · rw [h] at hres
      cases Except.ok.inj hres
      exact absurd rfl hent
    · rw [h] at hres
      cases Except.ok.inj hres
      exact absurd rfl hent
    · rw [h] at hres
      simp at hres
    · rw [h] at hres
      cases Except.ok.inj hres
      exact ⟨hr, rfl, rfl⟩

/-- Witness for C5 at a concrete proxy request with matching uuid and an
applicable diff. -/
theorem wdiffTransfer_reply_tags_witness :
    (wdiffReq0.volId ≠ "" ∧
     (wdiffReq0.clientType = "proxy" ∨ wdiffReq0.clientType = "archive") ∧
     archVolRestore.stopState = StopState.NotStopping) ∧
    WdiffReplySpec archVolRestore wdiffReq0 :=
  ⟨⟨by decide, Or.inl rfl, rfl⟩,
   wdiffTransfer_reply_tags archVolRestore wdiffReq0 (by decide)
     (Or.inl rfl) rfl⟩

/-- Witness for C1 amended at the concrete volume with a running Restore
action. -/
theorem archive_action_counter_gating_witness :
    isAllZero archVolRestore.ac archiveActions = false ∧
    ((∃ e, c2aInitVolServer archVolRestore = .error e) ∧
     (∃ e, c2aClearVolServer archVolRestore = .error e) ∧
     (∃ e, c2aStartServer archVolRestore = .error e) ∧
     (∀ prm chunks fuel gidB gidE, ∃ e,
        x2aDirtyFullSyncServer archVolRestore prm chunks fuel gidB gidE
          = some (.error e)) ∧
     c2aStopWaitPred archVolRestore = false) :=
  ⟨by decide, archive_action_counter_gating archVolRestore (by decide)⟩

end Walb
